import Mathlib

/-!
Shallow embedding of the core pure logic of the job-portal scraper
(src/base_scraper.py, src/main.py, src/scrapers/meta.py, src/scrapers/nvidia.py).

Python strings are modelled as `List Char`; the loosely typed values that can
flow through job-record fields are modelled by the inductive `PyVal`.
`json.loads` is an external collaborator and is modelled as a parameter
`loads : List Char → Option PyVal` (`none` = parse failure, i.e. the
`except` path of the `try`).  Recursions that walk a shrinking suffix of a
list are driven by an explicit fuel initialised to the list length, so that
every definition is structural and evaluable by `decide`.
-/

/-- The Python substring test `needle in hay`. -/
def containsSubstr (hay needle : List Char) : Bool :=
  match hay with
  | [] => needle.isEmpty
  | c :: t => needle.isPrefixOf (c :: t) || containsSubstr t needle

/-- Python `str.lower()` (ASCII model, which covers every keyword the
scraper searches for). -/
def lowerL (s : List Char) : List Char :=
  s.map Char.toLower

/-- The whitespace characters stripped by Python `str.strip()`. -/
def pyIsSpace (c : Char) : Bool :=
  c = ' ' || c = '\t' || c = '\n' || c = '\r' || c = Char.ofNat 11 || c = Char.ofNat 12

/-- Python `str.strip()`. -/
def stripL (s : List Char) : List Char :=
  ((s.dropWhile pyIsSpace).reverse.dropWhile pyIsSpace).reverse

/-- Python `str.split(sep)` for a one-character separator.  The result is
always a non-empty list (`"".split(",") == [""]`). -/
def splitChar (sep : Char) : List Char → List (List Char)
  | [] => [[]]
  | a :: t =>
    if a = sep then [] :: splitChar sep t
    else
      match splitChar sep t with
      | h :: r => (a :: h) :: r
      | [] => [[a]]

/-- `"remote" in text or "work from home" in text or "wfh" in text`
(src/base_scraper.py:170). -/
def mentionsRemote (t : List Char) : Bool :=
  containsSubstr t ("remote".toList) || containsSubstr t ("work from home".toList) ||
    containsSubstr t ("wfh".toList)

/-- `"hybrid" in text` (src/base_scraper.py:171,173). -/
def mentionsHybrid (t : List Char) : Bool :=
  containsSubstr t ("hybrid".toList)

/-- `BaseJobScraper.detect_work_mode` (src/base_scraper.py:166-175). -/
def detect_work_mode (text : List Char) : List Char :=
  if text = [] then "onsite".toList
  else
    let t := lowerL text
    if mentionsRemote t then
      if mentionsHybrid t then "hybrid".toList else "remote".toList
    else if mentionsHybrid t then "hybrid".toList
    else "onsite".toList

/-- The Python values that can reach `clean_html_field` / the record fields:
`None`, booleans, integers, strings, lists and dicts (dicts as association
lists with string keys, matching JSON-decoded objects). -/
inductive PyVal where
  | pnone : PyVal
  | pbool : Bool → PyVal
  | pint : Int → PyVal
  | pstr : List Char → PyVal
  | plist : List PyVal → PyVal
  | pdict : List (List Char × PyVal) → PyVal

/-- Python truthiness test `not field_val` (negated): falsy values are
`None`, `False`, `0`, `""`, `[]`, and the empty dict. -/
def isFalsy : PyVal → Bool
  | PyVal.pnone => true
  | PyVal.pbool b => !b
  | PyVal.pint n => n == 0
  | PyVal.pstr s => s.isEmpty
  | PyVal.plist l => l.isEmpty
  | PyVal.pdict d => d.isEmpty

/-- The dict unwrap step: membership and lookup of the key __html, `none`
otherwise (src/base_scraper.py:28-29). -/
def dictHtmlValue : PyVal → Option PyVal
  | PyVal.pdict d => (d.find? (fun kv => kv.1 == ("__html".toList))).map (fun kv => kv.2)
  | _ => none

/-- Quote character chosen by Python `repr` for a string: double quote
exactly when the string holds a single quote but no double quote. -/
def pyQuote (s : List Char) : Char :=
  if s.contains (Char.ofNat 39) && !(s.contains '"') then '"' else Char.ofNat 39

/-- One character of the Python `repr` string escaping (ASCII model:
backslash, the active quote, and the common control characters). -/
def pyEscapeChar (q c : Char) : List Char :=
  if c = '\\' then ['\\', '\\']
  else if c = q then ['\\', q]
  else if c = '\n' then ['\\', 'n']
  else if c = '\r' then ['\\', 'r']
  else if c = '\t' then ['\\', 't']
  else [c]

/-- Python `repr` of a string (ASCII model). -/
def pyReprStr (s : List Char) : List Char :=
  let q := pyQuote s
  q :: ((s.map (pyEscapeChar q)).flatten ++ [q])

mutual

/-- Python `str(value)`. -/
def pyStr : PyVal → List Char
  | PyVal.pnone => "None".toList
  | PyVal.pbool b => if b then "True".toList else "False".toList
  | PyVal.pint n => (toString n).toList
  | PyVal.pstr s => s
  | PyVal.plist l => '[' :: (pyReprList l ++ [']'])
  | PyVal.pdict d => Char.ofNat 123 :: (pyReprDict d ++ [Char.ofNat 125])

/-- Python `repr(value)`. -/
def pyRepr : PyVal → List Char
  | PyVal.pnone => "None".toList
  | PyVal.pbool b => if b then "True".toList else "False".toList
  | PyVal.pint n => (toString n).toList
  | PyVal.pstr s => pyReprStr s
  | PyVal.plist l => '[' :: (pyReprList l ++ [']'])
  | PyVal.pdict d => Char.ofNat 123 :: (pyReprDict d ++ [Char.ofNat 125])

/-- Comma-joined element reprs of a list. -/
def pyReprList : List PyVal → List Char
  | [] => []
  | [v] => pyRepr v
  | v :: t => pyRepr v ++ (", ".toList) ++ pyReprList t

/-- Comma-joined `repr(key): repr(value)` pairs of the dict items. -/
def pyReprDict : List (List Char × PyVal) → List Char
  | [] => []
  | [kv] => pyReprStr kv.1 ++ (": ".toList) ++ pyRepr kv.2
  | kv :: t => pyReprStr kv.1 ++ (": ".toList) ++ pyRepr kv.2 ++ (", ".toList) ++ pyReprDict t

end

/-- Python `str.replace(pat, rep)` (all non-overlapping occurrences, left
to right), as fuel-driven structural recursion; `replaceAll` instantiates
the fuel with the string length, which is always sufficient. -/
def replaceAllF (pat rep : List Char) : Nat → List Char → List Char
  | 0, s => s
  | _ + 1, [] => []
  | fuel + 1, c :: t =>
    if !pat.isEmpty && pat.isPrefixOf (c :: t) then
      rep ++ replaceAllF pat rep fuel ((c :: t).drop pat.length)
    else c :: replaceAllF pat rep fuel t

/-- Python `str.replace(pat, rep)` for a non-empty pattern. -/
def replaceAll (pat rep s : List Char) : List Char :=
  replaceAllF pat rep s.length s

/-- After `<` and one non-`<` character, scan for the first `>` of a tag;
a second `<` aborts the scan (the regex class `[^<]` cannot cross it).
Returns the suffix after the closing `>`. -/
def closeTag : List Char → Option (List Char)
  | [] => none
  | c :: t => if c = '>' then some t else if c = '<' then none else closeTag t

/-- The tag removal `re.sub` with pattern `<[^<]+?>` (src/base_scraper.py:37): drop every
leftmost-match tag `<` + one-or-more non-`<` characters + `>`, keeping
everything else.  Fuel-driven; `stripTags` supplies sufficient fuel. -/
def stripTagsF : Nat → List Char → List Char
  | 0, s => s
  | _ + 1, [] => []
  | fuel + 1, c :: t =>
    if c = '<' then
      match t with
      | [] => ['<']
      | d :: t2 =>
        if d = '<' then '<' :: stripTagsF fuel t
        else
          match closeTag t2 with
          | some rest => stripTagsF fuel rest
          | none => c :: stripTagsF fuel t
    else c :: stripTagsF fuel t

/-- The tag removal `re.sub` with pattern `<[^<]+?>` applied to the whole text. -/
def stripTags (s : List Char) : List Char :=
  stripTagsF s.length s

/-- The pure string pipeline of `BaseJobScraper.clean_html_field`
(src/base_scraper.py:33-43): structural tag replacements, generic tag
stripping, entity decoding, final strip. -/
def cleanStr (s : List Char) : List Char :=
  let content := replaceAll ("</li>".toList) ("\n• ".toList) s
  let content := replaceAll ("<ul>".toList) ("\n".toList) content
  let content := replaceAll ("</ul>".toList) ("\n".toList) content
  let content := replaceAll ("<br>".toList) ("\n".toList) content
  let content := replaceAll ("<br/>".toList) ("\n".toList) content
  let content := replaceAll ("</p>".toList) ("\n\n".toList) content
  let clean_text := stripTags content
  let clean_text := replaceAll ("&quot;".toList) ("\"".toList) clean_text
  let clean_text := replaceAll ("&#039;".toList) ([Char.ofNat 39]) clean_text
  let clean_text := replaceAll ("&amp;".toList) ("&".toList) clean_text
  let clean_text := replaceAll ("&nbsp;".toList) (" ".toList) clean_text
  let clean_text := replaceAll ("&bull;".toList) ("•".toList) clean_text
  stripL clean_text

/-- The test: stripped `field_val` starts with an opening curly brace
(src/base_scraper.py:24). -/
def startsWithBrace (s : List Char) : Bool :=
  match stripL s with
  | [] => false
  | c :: _ => c = Char.ofNat 123

/-- `BaseJobScraper.clean_html_field` (src/base_scraper.py:21-43).
`loads` models `json.loads`; a failed parse (`none`) keeps the original
value, mirroring `except: pass`. -/
def clean_html_field (loads : List Char → Option PyVal) (field_val : PyVal) : List Char :=
  if isFalsy field_val then []
  else
    let v1 := match field_val with
      | PyVal.pstr s => if startsWithBrace s then (loads s).getD (PyVal.pstr s) else PyVal.pstr s
      | v => v
    let v2 := (dictHtmlValue v1).getD v1
    match v2 with
    | PyVal.pstr s => cleanStr s
    | v => pyStr v

/-- One attempt of the case-insensitive `re.search` with pattern
`(\d+%\s*(travel|traveling))`
anchored at the start of `s`: greedy digit run, `%`, greedy whitespace run,
then the six characters `travel` case-insensitively (the `traveling`
alternative can never be chosen, since `travel` is its prefix and
alternation is ordered).  Returns the verbatim matched text. -/
def travelMatchAt (s : List Char) : Option (List Char) :=
  let digits := s.takeWhile Char.isDigit
  if digits.isEmpty then none
  else
    match s.drop digits.length with
    | [] => none
    | c :: rest2 =>
      if c = '%' then
        let ws := rest2.takeWhile pyIsSpace
        let rest3 := rest2.drop ws.length
        if lowerL (rest3.take 6) = ("travel".toList) then
          some (digits ++ '%' :: (ws ++ rest3.take 6))
        else none
      else none

/-- Leftmost match of the travel-percentage regex (src/base_scraper.py:181):
try every start position left to right. -/
def findTravelMatch : List Char → Option (List Char)
  | [] => none
  | c :: t =>
    match travelMatchAt (c :: t) with
    | some m => some m
    | none => findTravelMatch t

/-- `BaseJobScraper.detect_travel` (src/base_scraper.py:177-188). -/
def detect_travel (text : List Char) : List Char :=
  if text = [] then "No travel".toList
  else
    match findTravelMatch text with
    | some m => m
    | none =>
      if containsSubstr (lowerL text) ("no travel".toList) then "No travel".toList
      else if containsSubstr (lowerL text) ("travel required".toList) ||
          containsSubstr (lowerL text) ("willingness to travel".toList) then
        "Travel required".toList
      else "Not specified".toList

/-- The `additional_links` derivation of `BaseJobScraper.translate_to_rag_schema`
(src/base_scraper.py:214-219): a string is comma-split, each part stripped,
empty parts dropped; any non-string value yields the empty list. -/
def rag_additional_links (links_raw : PyVal) : List (List Char) :=
  match links_raw with
  | PyVal.pstr s => ((splitChar ',' s).map stripL).filter (fun link => !link.isEmpty)
  | _ => []

/-- Python `.split("/")[-1]` (the split list is never empty). -/
def lastSegment (s : List Char) : List Char :=
  (splitChar '/' s).getLastD []

/-- Python `.split("?")[0]`. -/
def beforeQuery (s : List Char) : List Char :=
  (splitChar '?' s).headD []

/-- The `metadata.job_id` derivation of `translate_to_rag_schema`
(src/base_scraper.py:223):
`str(job.get("job_id") or job.get("job_link", "")).split("/")[-1].split("?")[0]`.
`job_id` is the explicit id of the record (`PyVal.pnone` when the key is
absent) and `job_link` its link string. -/
def rag_job_id (job_id : PyVal) (job_link : List Char) : List Char :=
  beforeQuery (lastSegment (pyStr (if isFalsy job_id then PyVal.pstr job_link else job_id)))

/-- The `identifier.value` derivation of `translate_to_schema`
(src/base_scraper.py:158-162): `job.get("job_link", "").split("/")[-1]`. -/
def schema_identifier_value (job_link : List Char) : List Char :=
  lastSegment job_link

/-- The retry loop of `NvidiaScraper.scrape_job_details`
(src/scrapers/nvidia.py:122-165): `f attempt` is the outcome of the attempt
body (`none` = an exception was raised and caught); the remaining-attempt
count is the structural fuel. -/
def retryLoop (f : Nat → Option α) : Nat → Nat → Option α
  | _, 0 => none
  | attempt, remaining + 1 =>
    match f attempt with
    | some r => some r
    | none => retryLoop f (attempt + 1) remaining

/-- `NvidiaScraper.scrape_job_details` with its hardcoded `max_retries = 3`. -/
def scrape_job_details (f : Nat → Option α) : Option α :=
  retryLoop f 0 3

/-- `self.jobs = [r for r in results if r]` (src/scrapers/meta.py:27,
src/scrapers/nvidia.py:59); a parse result is `none` exactly when the task
produced a falsy value (`None`). -/
def collectJobs (results : List (Option α)) : List α :=
  results.filterMap id

/-- One completion event of a gathered task: task `i` finishes and its
result is stored in slot `i` of the result array (`asyncio.gather` keeps
one slot per dispatched task). -/
def gatherStep (tasks : List (Option α)) (slots : List (Option (Option α))) (i : Nat) :
    List (Option (Option α)) :=
  slots.set i (some (tasks.getD i none))

/-- The slot array after the tasks complete in the order listed by
`schedule` (a permutation of the task indices). -/
def gatherSlots (tasks : List (Option α)) (schedule : List Nat) : List (Option (Option α)) :=
  schedule.foldl (gatherStep tasks) (List.replicate tasks.length none)

/-- `results = await asyncio.gather(*tasks)`: the slot array read back in
dispatch order once every task has completed. -/
def gatherResults (tasks : List (Option α)) (schedule : List Nat) : List (Option α) :=
  (gatherSlots tasks schedule).map (fun s => s.getD none)

/-- `MetaScraper.run` / `NvidiaScraper.run` steps 2-3
(src/scrapers/meta.py:20-27, src/scrapers/nvidia.py:53-59): one task per
discovered link, gathered, then filtered into `self.jobs`. -/
def run_jobs (links : List β) (parse : β → Option α) (schedule : List Nat) : List α :=
  collectJobs (gatherResults (links.map parse) schedule)

/-- What `main` (src/main.py) does after parsing arguments: either exit
with a status code before any scraper exists, or construct the selected
scraper and run it (the only action that performs network activity). -/
inductive MainAction where
  | exitWith : Nat → MainAction
  | runScraper : List Char → Option Int → MainAction
deriving DecidableEq

/-- The `--max_pages` pre-flight guard of `main` (src/main.py:21-23). -/
def maxPagesInvalid : Option Int → Bool
  | some n => decide (n ≤ 0)
  | none => false

/-- `main` (src/main.py:12-40): `sys.exit(1)` when the guard fires,
otherwise construct the chosen scraper and run it. -/
def main_dispatch (max_pages : Option Int) (portal : List Char) : MainAction :=
  if maxPagesInvalid max_pages then MainAction.exitWith 1
  else MainAction.runScraper portal max_pages

/-- Filesystem effects a save routine can perform. -/
inductive FsEffect where
  | makeDir : List Char → FsEffect
  | writeFile : List Char → FsEffect
deriving DecidableEq

/-- `BaseJobScraper.save_to_rag_json` (src/base_scraper.py:265-298) as its
sequence of filesystem effects; `timestamp` stands for the formatted
`datetime.now()`. -/
def save_to_rag_json (jobs : List α) (portal_name timestamp : List Char) : List FsEffect :=
  if jobs.isEmpty then []
  else
    [FsEffect.makeDir ("data".toList),
     FsEffect.writeFile (("data/".toList) ++ portal_name ++ ("_rag_".toList) ++ timestamp ++ (".json".toList))]

/-- `BaseJobScraper.save_to_json_schema` (src/base_scraper.py:300-323) as
its sequence of filesystem effects. -/
def save_to_json_schema (jobs : List α) (portal_name timestamp : List Char) : List FsEffect :=
  if jobs.isEmpty then []
  else
    [FsEffect.makeDir ("data".toList),
     FsEffect.writeFile (("data/".toList) ++ portal_name ++ ("_schema_".toList) ++ timestamp ++ (".json".toList))]

/-- `BaseJobScraper.save_to_formats` (src/base_scraper.py:325-358) as its
sequence of filesystem effects (xlsx, ods, csv). -/
def save_to_formats (jobs : List α) (portal_name timestamp : List Char) : List FsEffect :=
  if jobs.isEmpty then []
  else
    [FsEffect.makeDir ("data".toList),
     FsEffect.writeFile (("data/".toList) ++ portal_name ++ ("_jobs_".toList) ++ timestamp ++ (".xlsx".toList)),
     FsEffect.writeFile (("data/".toList) ++ portal_name ++ ("_jobs_".toList) ++ timestamp ++ (".ods".toList)),
     FsEffect.writeFile (("data/".toList) ++ portal_name ++ ("_jobs_".toList) ++ timestamp ++ (".csv".toList))]

/-- A replacement whose pattern holds a character absent from the text is
the identity (fuel version). -/
theorem replaceAllF_of_not_mem {pat rep : List Char} {a : Char} (ha : a ∈ pat) :
    ∀ {fuel : Nat} {s : List Char}, a ∉ s → replaceAllF pat rep fuel s = s := by
  intro fuel
  induction fuel with
  | zero => intro s _; rfl
  | succ n ih =>
    intro s hs
    cases s with
    | nil => rfl
    | cons c t =>
      have hpre : pat.isPrefixOf (c :: t) = false := by
        cases hx : pat.isPrefixOf (c :: t)
        · rfl
        · exact absurd ((List.isPrefixOf_iff_prefix.mp hx).subset ha) hs
      have ht : a ∉ t := fun h => hs (List.mem_cons_of_mem _ h)
      simp only [replaceAllF, hpre, Bool.and_false, Bool.false_eq_true, if_false]
      rw [ih ht]

/-- A replacement whose pattern holds a character absent from the text is
the identity. -/
theorem replaceAll_of_not_mem {pat rep : List Char} {a : Char} (ha : a ∈ pat)
    {s : List Char} (hs : a ∉ s) : replaceAll pat rep s = s :=
  replaceAllF_of_not_mem ha hs

/-- Tag stripping is the identity on text with no `<` (fuel version). -/
theorem stripTagsF_of_not_mem :
    ∀ {fuel : Nat} {s : List Char}, '<' ∉ s → stripTagsF fuel s = s := by
  intro fuel
  induction fuel with
  | zero => intro s _; rfl
  | succ n ih =>
    intro s hs
    cases s with
    | nil => rfl
    | cons c t =>
      have hc : ¬ c = '<' := fun h => hs (h ▸ List.mem_cons_self c t)
      have ht : '<' ∉ t := fun h => hs (List.mem_cons_of_mem _ h)
      simp only [stripTagsF, if_neg hc]
      rw [ih ht]

/-- Tag stripping is the identity on text with no `<`. -/
theorem stripTags_of_not_mem {s : List Char} (hs : '<' ∉ s) : stripTags s = s :=
  stripTagsF_of_not_mem hs

/-- On text with no `<` and no `&`, the cleaning pipeline only strips
surrounding whitespace. -/
theorem cleanStr_of_no_tag_no_amp {y : List Char} (hlt : '<' ∉ y) (hamp : '&' ∉ y) :
    cleanStr y = stripL y := by
  unfold cleanStr
  simp only [replaceAll_of_not_mem (a := '<') (by decide : '<' ∈ ("</li>".toList)) hlt,
    replaceAll_of_not_mem (a := '<') (by decide : '<' ∈ ("<ul>".toList)) hlt,
    replaceAll_of_not_mem (a := '<') (by decide : '<' ∈ ("</ul>".toList)) hlt,
    replaceAll_of_not_mem (a := '<') (by decide : '<' ∈ ("<br>".toList)) hlt,
    replaceAll_of_not_mem (a := '<') (by decide : '<' ∈ ("<br/>".toList)) hlt,
    replaceAll_of_not_mem (a := '<') (by decide : '<' ∈ ("</p>".toList)) hlt,
    stripTags_of_not_mem hlt,
    replaceAll_of_not_mem (a := '&') (by decide : '&' ∈ ("&quot;".toList)) hamp,
    replaceAll_of_not_mem (a := '&') (by decide : '&' ∈ ("&#039;".toList)) hamp,
    replaceAll_of_not_mem (a := '&') (by decide : '&' ∈ ("&amp;".toList)) hamp,
    replaceAll_of_not_mem (a := '&') (by decide : '&' ∈ ("&nbsp;".toList)) hamp,
    replaceAll_of_not_mem (a := '&') (by decide : '&' ∈ ("&bull;".toList)) hamp]

/-- Python's split never returns an empty list. -/
theorem splitChar_ne_nil (sep : Char) (s : List Char) : splitChar sep s ≠ [] := by
  induction s with
  | nil => simp [splitChar]
  | cons b t ih =>
    simp only [splitChar]
    by_cases hb : b = sep
    · simp [hb]
    · rw [if_neg hb]
      rcases hx : splitChar sep t with _ | ⟨x, r⟩ <;> simp

/-- Splitting on a separator absent from the text yields the whole text. -/
theorem splitChar_of_not_mem {sep : Char} {s : List Char} (h : sep ∉ s) :
    splitChar sep s = [s] := by
  induction s with
  | nil => rfl
  | cons b t ih =>
    have hb : ¬ b = sep := by rintro rfl; exact h (List.mem_cons_self _ _)
    have ht : sep ∉ t := fun hh => h (List.mem_cons_of_mem _ hh)
    simp only [splitChar, if_neg hb, ih ht]

/-- Every character of a split segment occurs in the original text. -/
theorem mem_of_mem_splitChar {sep : Char} :
    ∀ {s x : List Char} {a : Char}, x ∈ splitChar sep s → a ∈ x → a ∈ s := by
  intro s
  induction s with
  | nil =>
    intro x a hx hax
    simp only [splitChar, List.mem_singleton] at hx
    subst hx
    cases hax
  | cons b t ih =>
    intro x a hx hax
    by_cases hb : b = sep
    · rw [splitChar, if_pos hb] at hx
      rcases List.mem_cons.mp hx with h | h
      · subst h; cases hax
      · exact List.mem_cons_of_mem _ (ih h hax)
    · rw [splitChar, if_neg hb] at hx
      rcases hsp : splitChar sep t with _ | ⟨seg, r⟩
      · exact absurd hsp (splitChar_ne_nil sep t)
      · rw [hsp] at hx
        rcases List.mem_cons.mp hx with h | h
        · subst h
          rcases List.mem_cons.mp hax with h | h
          · exact h ▸ List.mem_cons_self _ _
          · exact List.mem_cons_of_mem _ (ih (hsp ▸ List.mem_cons_self seg r) h)
        · exact List.mem_cons_of_mem _ (ih (hsp ▸ List.mem_cons_of_mem seg h) hax)

/-- The last element read with a default is a member of a non-empty list. -/
theorem getLastD_mem : ∀ (l : List α) (d : α), l ≠ [] → l.getLastD d ∈ l := by
  intro l
  induction l with
  | nil => intro d h; exact absurd rfl h
  | cons a t ih =>
    intro d _
    cases t with
    | nil => simp [List.getLastD]
    | cons b r =>
      rw [List.getLastD_cons]
      exact List.mem_cons_of_mem _ (ih a (by simp))

/-- `str` of a Python string is the string itself. -/
theorem pyStr_pstr (s : List Char) : pyStr (PyVal.pstr s) = s := rfl

/-- The filtered job list counts exactly the successful parse results. -/
theorem length_filterMap_id (l : List (Option α)) :
    (l.filterMap id).length = l.countP (fun o => o.isSome) := by
  induction l with
  | nil => rfl
  | cons o t ih =>
    cases o with
    | none => simpa [List.filterMap_cons, List.countP_cons] using ih
    | some a => simp [List.filterMap_cons, List.countP_cons, ih]

/-- Slot contents after a batch of completion events: a slot holds its
task's result exactly when its index completed, and is otherwise untouched. -/
theorem gatherSlots_getElem? (tasks : List (Option α)) :
    ∀ (schedule : List Nat) (slots : List (Option (Option α))) (j : Nat),
      (schedule.foldl (gatherStep tasks) slots)[j]? =
        if j ∈ schedule ∧ j < slots.length then some (some (tasks.getD j none))
        else slots[j]? := by
  intro schedule
  induction schedule with
  | nil => intro slots j; simp
  | cons i rest ih =>
    intro slots j
    rw [List.foldl_cons, ih]
    simp only [gatherStep, List.length_set, List.getElem?_set, List.mem_cons]
    by_cases hjr : j ∈ rest <;> by_cases hjl : j < slots.length <;> by_cases hji : i = j
    · simp [hjr, hjl, hji]
    · simp [hjr, hjl, Ne.symm hji]
    · subst hji
      simp [hjr, hjl, List.getElem?_eq_none (Nat.le_of_not_lt hjl)]
    · simp [hjr, hjl, hji, Ne.symm hji, List.getElem?_eq_none (Nat.le_of_not_lt hjl)]
    · subst hji
      simp [hjr, hjl]
    · simp [hjr, hjl, hji, Ne.symm hji]
    · subst hji
      simp [hjr, hjl, List.getElem?_eq_none (Nat.le_of_not_lt hjl)]
    · simp [hjr, hjl, hji, Ne.symm hji, List.getElem?_eq_none (Nat.le_of_not_lt hjl)]

/-- Once every dispatched task has completed (in any order), reading the
slots back in dispatch order recovers exactly the per-task results. -/
theorem gatherResults_eq_of_perm (tasks : List (Option α)) (schedule : List Nat)
    (h : schedule.Perm (List.range tasks.length)) :
    gatherResults tasks schedule = tasks := by
  apply List.ext_getElem?
  intro j
  have hmem : j ∈ schedule ↔ j < tasks.length := by rw [h.mem_iff, List.mem_range]
  unfold gatherResults gatherSlots
  rw [List.getElem?_map, gatherSlots_getElem?]
  by_cases hj : j < tasks.length
  · rw [if_pos ⟨hmem.mpr hj, by simpa using hj⟩, List.getElem?_eq_getElem hj]
    simp [List.getD_eq_getElem?_getD, List.getElem?_eq_getElem hj]
  · rw [if_neg (by simp [hmem, hj])]
    simp [List.getElem?_replicate, hj, List.getElem?_eq_none (Nat.le_of_not_lt hj)]

/-- Cleaning the empty string yields the empty string. -/
theorem cleanStr_nil : cleanStr [] = [] := rfl

/-- Unfolding `clean_html_field` on a string whose stripped form does not
open with a brace: the JSON branch is skipped regardless of the parser. -/
theorem clean_html_field_pstr_no_brace (loads : List Char → Option PyVal) (y : List Char)
    (hbrace : startsWithBrace y = false) :
    clean_html_field loads (PyVal.pstr y) = if y.isEmpty then [] else cleanStr y := by
  by_cases hy : y = []
  · subst hy; rfl
  · have h1 : isFalsy (PyVal.pstr y) = false := by simp [isFalsy, hy]
    have h2 : y.isEmpty = false := by simp [hy]
    simp [clean_html_field, h1, h2, hbrace, dictHtmlValue]

/-- Unfolding `clean_html_field` on a string when the JSON parse fails:
the original string is kept and cleaned (`except: pass`). -/
theorem clean_html_field_pstr_loads_none (loads : List Char → Option PyVal) (s : List Char)
    (hl : loads s = none) :
    clean_html_field loads (PyVal.pstr s) = cleanStr s := by
  by_cases hy : s = []
  · subst hy; rfl
  · have h1 : isFalsy (PyVal.pstr s) = false := by simp [isFalsy, hy]
    by_cases hb : startsWithBrace s
    · simp [clean_html_field, h1, hb, hl, dictHtmlValue]
    · simp [clean_html_field, h1, hb, dictHtmlValue]

/-- C1: `detect_work_mode` classifies with the exact precedence: if the
lower-cased text mentions remote work (remote, work from home, wfh), the
result is hybrid when hybrid also appears and remote otherwise; else
hybrid when the text mentions hybrid; else onsite — together with the
three concrete spec examples. -/
theorem detect_work_mode_precedence (text : List Char) :
    (mentionsRemote (lowerL text) = true → mentionsHybrid (lowerL text) = true →
      detect_work_mode text = ("hybrid".toList)) ∧
    (mentionsRemote (lowerL text) = true → mentionsHybrid (lowerL text) = false →
      detect_work_mode text = ("remote".toList)) ∧
    (mentionsRemote (lowerL text) = false → mentionsHybrid (lowerL text) = true →
      detect_work_mode text = ("hybrid".toList)) ∧
    (mentionsRemote (lowerL text) = false → mentionsHybrid (lowerL text) = false →
      detect_work_mode text = ("onsite".toList)) ∧
    detect_work_mode ("Remote position, hybrid schedule available".toList) = ("hybrid".toList) ∧
    detect_work_mode ("100% remote".toList) = ("remote".toList) ∧
    detect_work_mode ("must work onsite".toList) = ("onsite".toList) := by
  refine ⟨fun h1 h2 => ?_, fun h1 h2 => ?_, fun h1 h2 => ?_, fun h1 h2 => ?_,
    by decide, by decide, by decide⟩
  all_goals by_cases htext : text = []
  all_goals first
    | (subst htext; revert h1 h2; decide)
    | simp [detect_work_mode, htext, h1, h2]

/-- C1 witness: the theorem applied to the text "100% remote". -/
theorem detect_work_mode_precedence_witness :
    detect_work_mode ("100% remote".toList) = ("remote".toList) :=
  (detect_work_mode_precedence ("100% remote".toList)).2.1 (by decide) (by decide)

/-- C4 counterexample: cleaning is not idempotent.  On the string
"&amp;amp;" one cleaning pass decodes the leading "&amp;" and yields
"&amp;", which a second pass decodes further to "&". -/
theorem clean_html_field_not_idempotent :
    clean_html_field (fun _ => none)
        (PyVal.pstr (clean_html_field (fun _ => none) (PyVal.pstr ("&amp;amp;".toList)))) ≠
      clean_html_field (fun _ => none) (PyVal.pstr ("&amp;amp;".toList)) := by
  decide

/-- C4 (amended): re-cleaning already-clean text is a no-op, where clean
means: no tag opener `<`, no entity ampersand `&`, already stripped, and
not opening with a curly brace after stripping.  For such text
`clean_html_field` is the identity, for every JSON parser. -/
theorem clean_html_field_idem_on_clean (loads : List Char → Option PyVal) (y : List Char)
    (hlt : '<' ∉ y) (hamp : '&' ∉ y) (hstrip : stripL y = y)
    (hbrace : startsWithBrace y = false) :
    clean_html_field loads (PyVal.pstr y) = y := by
  rw [clean_html_field_pstr_no_brace loads y hbrace]
  by_cases hy : y = []
  · simp [hy]
  · have h2 : y.isEmpty = false := by simp [hy]
    simp [h2, cleanStr_of_no_tag_no_amp hlt hamp, hstrip]

/-- C4 witness: the amended theorem applied to the clean text "hello". -/
theorem clean_html_field_idem_on_clean_witness :
    clean_html_field (fun _ => none) (PyVal.pstr ("hello".toList)) = ("hello".toList) :=
  clean_html_field_idem_on_clean (fun _ => none) ("hello".toList)
    (by decide) (by decide) (by decide) (by decide)

/-- C10: `clean_html_field` is total and always yields a string: falsy
input gives the empty string; non-string input that is not a dict HTML
wrapper gives the Python string representation of the value; and a string
whose JSON parse fails is simply cleaned as a string — no path raises. -/
theorem clean_html_field_totality (loads : List Char → Option PyVal) (v : PyVal) :
    (isFalsy v = true → clean_html_field loads v = []) ∧
    (isFalsy v = false → (∀ s, v ≠ PyVal.pstr s) → dictHtmlValue v = none →
      clean_html_field loads v = pyStr v) ∧
    (∀ s, v = PyVal.pstr s → loads s = none → clean_html_field loads v = cleanStr s) := by
  refine ⟨fun hf => ?_, fun hnf hns hd => ?_, fun s hv hl => ?_⟩
  · simp [clean_html_field, hf]
  · cases v with
    | pstr s => exact absurd rfl (hns s)
    | pnone => simp [isFalsy] at hnf
    | pbool b => simp [clean_html_field, hnf, hd]
    | pint n => simp [clean_html_field, hnf, hd]
    | plist l => simp [clean_html_field, hnf, hd]
    | pdict d => simp [clean_html_field, hnf, hd]
  · subst hv
    exact clean_html_field_pstr_loads_none loads s hl

/-- C10 witness: the theorem applied to the non-string value 5 with a
failing parser. -/
theorem clean_html_field_totality_witness :
    clean_html_field (fun _ => none) (PyVal.pint 5) = pyStr (PyVal.pint 5) :=
  (clean_html_field_totality (fun _ => none) (PyVal.pint 5)).2.1 (by decide)
    (fun s h => PyVal.noConfusion h) rfl

/-- C2: for every link list, per-link parse assignment and completion
order (any permutation of the task indices), the aggregated job list is
exactly the non-absent results in dispatch order, and its length is the
number of successful parses. -/
theorem run_aggregation_dispatch_order (links : List β) (parse : β → Option α)
    (schedule : List Nat) (h : schedule.Perm (List.range links.length)) :
    run_jobs links parse schedule = (links.map parse).filterMap id ∧
    (run_jobs links parse schedule).length =
      links.countP (fun l => (parse l).isSome) := by
  have heq : gatherResults (links.map parse) schedule = links.map parse :=
    gatherResults_eq_of_perm _ _ (by simpa using h)
  constructor
  · unfold run_jobs collectJobs
    rw [heq]
  · unfold run_jobs collectJobs
    rw [heq, length_filterMap_id, List.countP_map]
    rfl

/-- C2 witness: four tasks completing in the order 2, 0, 3, 1 still
aggregate in dispatch order. -/
theorem run_aggregation_dispatch_order_witness :
    run_jobs [0, 1, 2, 3] (fun n => if n % 2 = 0 then some n else none) [2, 0, 3, 1] =
      (([0, 1, 2, 3].map (fun n => if n % 2 = 0 then some n else none)).filterMap id) ∧
    (run_jobs [0, 1, 2, 3] (fun n => if n % 2 = 0 then some n else none) [2, 0, 3, 1]).length =
      [0, 1, 2, 3].countP (fun n => ((if n % 2 = 0 then some n else none) : Option Nat).isSome) :=
  run_aggregation_dispatch_order [0, 1, 2, 3] (fun n => if n % 2 = 0 then some n else none)
    [2, 0, 3, 1] (by decide)

/-- C3 counterexample: a list-valued `additional_links` is not passed
through; the translation maps it to the empty list. -/
theorem rag_additional_links_no_passthrough :
    rag_additional_links (PyVal.plist [PyVal.pstr ("https://a.example/x".toList)]) = [] ∧
    ([] : List (List Char)) ≠ [("https://a.example/x".toList)] :=
  ⟨rfl, by decide⟩

/-- C3 (amended): a string-valued `additional_links` is comma-split with
parts stripped and empties dropped; every non-string value — including an
existing list — yields the empty list. -/
theorem rag_additional_links_spec (s : List Char) (v : PyVal) :
    rag_additional_links (PyVal.pstr s) =
      ((splitChar ',' s).map stripL).filter (fun link => !link.isEmpty) ∧
    ((∀ t, v ≠ PyVal.pstr t) → rag_additional_links v = []) ∧
    rag_additional_links (PyVal.pstr (" a, b ,, c ".toList)) =
      [("a".toList), ("b".toList), ("c".toList)] := by
  refine ⟨rfl, fun h => ?_, by decide⟩
  cases v with
  | pstr t => exact absurd rfl (h t)
  | pnone => rfl
  | pbool b => rfl
  | pint n => rfl
  | plist l => rfl
  | pdict d => rfl

/-- C3 witness: the amended theorem applied to an empty list value. -/
theorem rag_additional_links_spec_witness :
    rag_additional_links (PyVal.plist []) = [] :=
  (rag_additional_links_spec [] (PyVal.plist [])).2.1 (fun _ h => PyVal.noConfusion h)

/-- C5 counterexample: the two translations disagree on a link with a
query string — the interchange identifier keeps the query, the RAG job id
strips it. -/
theorem job_id_derivations_disagree :
    schema_identifier_value ("https://x.example/jobs/123?src=a".toList) =
      ("123?src=a".toList) ∧
    rag_job_id PyVal.pnone ("https://x.example/jobs/123?src=a".toList) = ("123".toList) ∧
    schema_identifier_value ("https://x.example/jobs/123?src=a".toList) ≠
      rag_job_id PyVal.pnone ("https://x.example/jobs/123?src=a".toList) := by
  decide

/-- C5 (amended): the interchange identifier is always the trailing
slash-segment of the link, with no query stripping and ignoring any
explicit id; it coincides with the RAG job id exactly on records whose
explicit id is falsy or absent and whose link carries no question mark. -/
theorem job_id_agreement (job_id : PyVal) (job_link : List Char)
    (hid : isFalsy job_id = true) (hq : '?' ∉ job_link) :
    rag_job_id job_id job_link = schema_identifier_value job_link := by
  unfold rag_job_id schema_identifier_value
  rw [if_pos hid, pyStr_pstr]
  have hseg : '?' ∉ lastSegment job_link :=
    fun hin => hq (mem_of_mem_splitChar (getLastD_mem _ _ (splitChar_ne_nil '/' job_link)) hin)
  unfold beforeQuery
  rw [splitChar_of_not_mem hseg]
  rfl

/-- C5 witness: the amended theorem applied to a query-free link with no
explicit id. -/
theorem job_id_agreement_witness :
    rag_job_id PyVal.pnone ("https://x.example/jobs/123".toList) =
      schema_identifier_value ("https://x.example/jobs/123".toList) :=
  job_id_agreement PyVal.pnone ("https://x.example/jobs/123".toList) rfl (by decide)

/-- C6 counterexample: on the empty text `detect_travel` returns
"No travel", not "Not specified" as the claim states. -/
theorem detect_travel_empty_counterexample :
    detect_travel [] = ("No travel".toList) ∧
    ("No travel".toList) ≠ ("Not specified".toList) := by
  exact ⟨rfl, by decide⟩

/-- C6 (amended): the first case-insensitive percentage-travel match is
returned verbatim when one exists; else a "no travel" phrase yields
"No travel"; else "travel required" or "willingness to travel" yields
"Travel required"; else every NON-EMPTY text yields "Not specified", while
the empty text yields "No travel" — with the concrete spec examples. -/
theorem detect_travel_spec (text : List Char) :
    (text = [] → detect_travel text = ("No travel".toList)) ∧
    (∀ m, text ≠ [] → findTravelMatch text = some m → detect_travel text = m) ∧
    (text ≠ [] → findTravelMatch text = none →
      containsSubstr (lowerL text) ("no travel".toList) = true →
      detect_travel text = ("No travel".toList)) ∧
    (text ≠ [] → findTravelMatch text = none →
      containsSubstr (lowerL text) ("no travel".toList) = false →
      (containsSubstr (lowerL text) ("travel required".toList) ||
        containsSubstr (lowerL text) ("willingness to travel".toList)) = true →
      detect_travel text = ("Travel required".toList)) ∧
    (text ≠ [] → findTravelMatch text = none →
      containsSubstr (lowerL text) ("no travel".toList) = false →
      (containsSubstr (lowerL text) ("travel required".toList) ||
        containsSubstr (lowerL text) ("willingness to travel".toList)) = false →
      detect_travel text = ("Not specified".toList)) ∧
    detect_travel ("Up to 25% travel required".toList) = ("25% travel".toList) ∧
    detect_travel ("No travel required for this role".toList) = ("No travel".toList) ∧
    detect_travel ("Flexible hours".toList) = ("Not specified".toList) := by
  refine ⟨fun h => ?_, fun m hne hm => ?_, fun hne hm hno => ?_, fun hne hm hno htr => ?_,
    fun hne hm hno htr => ?_, by decide, by decide, by decide⟩
  · subst h; rfl
  · simp only [detect_travel, if_neg hne, hm]
  · simp only [detect_travel, if_neg hne, hm]
    rw [if_pos hno]
  · simp only [detect_travel, if_neg hne, hm]
    rw [if_neg (fun hc => Bool.false_ne_true (hno ▸ hc)), if_pos htr]
  · simp only [detect_travel, if_neg hne, hm]
    rw [if_neg (fun hc => Bool.false_ne_true (hno ▸ hc)), if_neg (fun hc => Bool.false_ne_true (htr ▸ hc))]

/-- C6 witness: the theorem applied to the regex example text. -/
theorem detect_travel_spec_witness :
    detect_travel ("Up to 25% travel required".toList) = ("25% travel".toList) :=
  (detect_travel_spec ("Up to 25% travel required".toList)).2.1 ("25% travel".toList)
    (by decide) (by decide)

/-- C7: with the hardcoded maximum of 3 attempts, a detail fetch failing
on the first two attempts and succeeding on the third returns that record,
and it is counted exactly once in the aggregated job list; a fetch failing
on all three attempts returns absent instead of raising. -/
theorem nvidia_retry_policy (f : Nat → Option α) (r : α) :
    (f 0 = none → f 1 = none → f 2 = some r → scrape_job_details f = some r) ∧
    (f 0 = none → f 1 = none → f 2 = none → scrape_job_details f = none) ∧
    (∀ before after : List (Option α), f 0 = none → f 1 = none → f 2 = some r →
      collectJobs (before ++ scrape_job_details f :: after) =
        collectJobs before ++ r :: collectJobs after) := by
  have h3 : ∀ o : Option α, f 0 = none → f 1 = none → f 2 = o → scrape_job_details f = o := by
    intro o h0 h1 h2
    simp only [scrape_job_details, retryLoop, h0, h1, h2]
    cases o <;> rfl
  refine ⟨fun h0 h1 h2 => h3 _ h0 h1 h2, fun h0 h1 h2 => h3 _ h0 h1 h2,
    fun b a h0 h1 h2 => ?_⟩
  rw [h3 _ h0 h1 h2]
  simp [collectJobs, List.filterMap_append, List.filterMap_cons]

/-- C7 witness: a fetch that succeeds only on attempt index 2. -/
theorem nvidia_retry_policy_witness :
    scrape_job_details (fun n => if n = 2 then some (7 : Nat) else none) = some 7 :=
  (nvidia_retry_policy (fun n => if n = 2 then some (7 : Nat) else none) 7).1 rfl rfl rfl

/-- C8: a present non-positive maxPages makes main exit with status 1 —
a non-zero status — before any scraper is constructed or run; a positive
or absent maxPages never triggers the pre-flight check. -/
theorem main_preflight_maxpages (max_pages : Option Int) (portal : List Char) :
    (∀ n, max_pages = some n → n ≤ 0 →
      main_dispatch max_pages portal = MainAction.exitWith 1 ∧
      main_dispatch max_pages portal ≠ MainAction.runScraper portal max_pages ∧
      (1 : Nat) ≠ 0) ∧
    (∀ n, max_pages = some n → 0 < n →
      main_dispatch max_pages portal = MainAction.runScraper portal max_pages) ∧
    (max_pages = none → main_dispatch max_pages portal = MainAction.runScraper portal max_pages) := by
  refine ⟨fun n h hle => ?_, fun n h hpos => ?_, fun h => ?_⟩
  · subst h
    have hg : maxPagesInvalid (some n) = true := by simp [maxPagesInvalid, hle]
    refine ⟨by simp [main_dispatch, hg], by simp [main_dispatch, hg], by decide⟩
  · subst h
    have hg : maxPagesInvalid (some n) = false := by
      simp only [maxPagesInvalid, decide_eq_false_iff_not]
      omega
    simp [main_dispatch, hg]
  · subst h
    rfl

/-- C8 witness: maxPages = 0 exits with status 1. -/
theorem main_preflight_maxpages_witness :
    main_dispatch (some 0) ("meta".toList) = MainAction.exitWith 1 :=
  ((main_preflight_maxpages (some 0) ("meta".toList)).1 0 rfl (by decide)).1

/-- C9: with an empty accumulated job list, each of the three save
routines performs no filesystem effect at all — no directory creation and
no file write. -/
theorem save_skips_empty_run (portal timestamp : List Char) :
    save_to_rag_json ([] : List PyVal) portal timestamp = [] ∧
    save_to_json_schema ([] : List PyVal) portal timestamp = [] ∧
    save_to_formats ([] : List PyVal) portal timestamp = [] :=
  ⟨rfl, rfl, rfl⟩
